import Mathlib

/-!
Verification of the agaru-up-api service (FastAPI + SQLite + R2 object store).

The development shallowly embeds the current source `src/app/agaru_up_api.py`
(the root-level `src/agaru_up_api.py` is an older revision of the same module;
where the two differ the `app/` version is taken as the code under
verification and differences are noted in doc comments).

External collaborators are embedded by their observed/documented semantics:
* SQLite `LIKE` (ASCII-case-insensitive, `%`/`_` wildcards),
* SQLite `ORDER BY` on a TEXT column (byte/codepoint order; modelled by a
  stable insertion sort),
* Python `datetime` (wall-clock seconds + microseconds + optional fixed UTC
  offset; `Asia/Tokyo` is the fixed offset +9h, which is exact for every
  timestamp after 1951),
* `requests`/`boto3`/the database connection, whose outcomes are inputs of
  the pipeline model (an environment record), since the pipeline only branches
  on success/failure and the HTTP status code.
-/

namespace AgaruUp

/-! ## Python-style string helpers -/

/-- Characters stripped by Python `str.strip()` (ASCII whitespace). -/
def isPySpace (c : Char) : Bool :=
  c = ' ' || c = '\t' || c = '\n' || c = '\r' || c = '\x0b' || c = '\x0c'

/-- Python `str.strip()`. -/
def pyStrip (s : String) : String :=
  String.mk (((s.data.dropWhile isPySpace).reverse.dropWhile isPySpace).reverse)

/-- Python `str.rstrip("/")`: remove every trailing slash. -/
def rstripSlash (s : String) : String :=
  String.mk ((s.data.reverse.dropWhile (· = '/')).reverse)

/-- Python `str.split(sep)` for a one-character separator: keeps empty pieces,
`"".split(",") = [""]`. -/
def splitChar (sep : Char) : List Char → List (List Char)
  | [] => [[]]
  | c :: cs =>
    if c = sep then [] :: splitChar sep cs
    else
      match splitChar sep cs with
      | [] => [[c]]
      | p :: ps => (c :: p) :: ps

/-- Python `s.split(",")` on strings. -/
def pySplitComma (s : String) : List String :=
  (splitChar ',' s.data).map String.mk

/-- Python `",".join(l)`. -/
def joinComma (l : List String) : String :=
  String.intercalate "," l

/-! ## ASCII-case-insensitive character machinery (SQLite `LIKE` folding) -/

/-- SQLite folds only the ASCII letters `A`-`Z` when comparing under `LIKE`. -/
def lowerCode (n : Nat) : Nat := if 65 ≤ n ∧ n ≤ 90 then n + 32 else n

/-- Character equality up to ASCII case, as used by SQLite `LIKE`. -/
def eqCI (a b : Char) : Bool := lowerCode a.toNat == lowerCode b.toNat

/-- Literal (wildcard-free) pattern match: same length, `eqCI` characterwise. -/
def litMatch : List Char → List Char → Bool
  | [], [] => true
  | p :: ps, c :: cs => eqCI p c && litMatch ps cs
  | _, _ => false

/-- `prefixCI p s`: `p` literally matches a prefix of `s` up to ASCII case. -/
def prefixCI : List Char → List Char → Bool
  | [], _ => true
  | _ :: _, [] => false
  | p :: ps, c :: cs => eqCI p c && prefixCI ps cs

/-- `infixCI p s`: `p` literally matches a contiguous run of `s` up to ASCII
case. -/
def infixCI (p : List Char) : List Char → Bool
  | [] => prefixCI p []
  | c :: cs => prefixCI p (c :: cs) || infixCI p cs

/-- Exact (case-sensitive) prefix test on character lists. -/
def prefixEx : List Char → List Char → Bool
  | [], _ => true
  | _ :: _, [] => false
  | p :: ps, c :: cs => (p == c) && prefixEx ps cs

/-- Exact (case-sensitive) infix test on character lists. -/
def infixEx (p : List Char) : List Char → Bool
  | [] => prefixEx p []
  | c :: cs => prefixEx p (c :: cs) || infixEx p cs

/-- The claim's notion of tag presence: `t` appears as a whole comma-delimited
token of the stored tag string `tags`, i.e. `",t,"` occurs inside
`"," ++ tags ++ ","` (exact characters). -/
def tokenPresent (t tags : String) : Bool :=
  infixEx (',' :: t.data ++ [',']) (',' :: tags.data ++ [','])

/-- Tag presence up to ASCII case: `",t,"` occurs inside `"," ++ tags ++ ","`
with characters compared case-insensitively (what the SQLite `LIKE` filter
actually guarantees for wildcard-free filter tags). -/
def tokenPresentCI (t tags : String) : Bool :=
  infixCI (',' :: t.data ++ [',']) (',' :: tags.data ++ [','])

/-- A string free of the SQL `LIKE` wildcard characters `%` and `_`. -/
def metaFree (l : List Char) : Bool := l.all (fun c => c ≠ '%' && c ≠ '_')

/-! ## SQLite `LIKE` -/

/-- SQLite `LIKE` pattern matching, fuel-indexed so that the recursion is
structural (each step consumes one pattern or one subject character, so
`pattern.length + subject.length + 1` fuel always suffices): `%` matches any
run of characters, `_` matches exactly one character, any other character
matches up to ASCII case. -/
def likeAux : Nat → List Char → List Char → Bool
  | 0, _, _ => false
  | _ + 1, [], s => s.isEmpty
  | fuel + 1, p :: ps, s =>
    if p = '%' then
      likeAux fuel ps s ||
        (match s with
         | [] => false
         | _ :: cs => likeAux fuel (p :: ps) cs)
    else
      match s with
      | [] => false
      | c :: cs => if p = '_' then likeAux fuel ps cs else eqCI p c && likeAux fuel ps cs

/-- SQLite `LIKE` pattern matching. -/
def likeMatch (p s : List Char) : Bool := likeAux (p.length + s.length + 1) p s

/-- `LIKE` with pattern and subject given as strings. -/
def strLike (pat s : String) : Bool := likeMatch pat.data s.data

/-! ## Calendar arithmetic (proleptic Gregorian, Howard Hinnant's algorithms) -/

/-- Days since 1970-01-01 of the civil date `y-m-d` (`m`, `d` one-based). -/
def daysFromCivil (y : Int) (m d : Nat) : Int :=
  let y' : Int := if m ≤ 2 then y - 1 else y
  let era : Int := y'.fdiv 400
  let yoe : Nat := (y' - era * 400).toNat
  let mp : Nat := if m ≥ 3 then m - 3 else m + 9
  let doy : Nat := (153 * mp + 2) / 5 + d - 1
  let doe : Nat := yoe * 365 + yoe / 4 - yoe / 100 + doy
  era * 146097 + (doe : Int) - 719468

/-- Civil date `(y, m, d)` of a day count since 1970-01-01. -/
def civilFromDays (z : Int) : Int × Nat × Nat :=
  let z' : Int := z + 719468
  let era : Int := z'.fdiv 146097
  let doe : Nat := (z' - era * 146097).toNat
  let yoe : Nat := (doe - doe / 1460 + doe / 36524 - doe / 146096) / 365
  let y : Int := (yoe : Int) + era * 400
  let doy : Nat := doe - (365 * yoe + yoe / 4 - yoe / 100)
  let mp : Nat := (5 * doy + 2) / 153
  let d : Nat := doy - (153 * mp + 2) / 5 + 1
  let m : Nat := if mp < 10 then mp + 3 else mp - 9
  (if m ≤ 2 then y + 1 else y, m, d)

/-- Number of days in a month of a given year. -/
def daysInMonth (y : Int) (m : Nat) : Nat :=
  if m = 2 then
    if y % 4 = 0 ∧ (y % 100 ≠ 0 ∨ y % 400 = 0) then 29 else 28
  else if m = 4 ∨ m = 6 ∨ m = 9 ∨ m = 11 then 30
  else 31

/-! ## Python `datetime` model -/

/-- A Python `datetime` value: wall-clock display time linearized to seconds
since 1970-01-01 00:00:00 (of the displayed fields, not of the instant),
microseconds, and the `tzinfo` as an optional fixed offset east of UTC in
seconds (`none` = naive). The absolute instant of an aware value is
`wall - offset`. -/
structure PyDatetime where
  wall : Int
  us : Nat
  tzOffset : Option Int
deriving DecidableEq, Repr

/-- Python `dt.astimezone(tz)` for a fixed-offset target zone, applied (as the
source always does) to an aware value; a naive value would be interpreted with
offset 0 here, but no call path constructs that case. -/
def astimezone (dt : PyDatetime) (target : Int) : PyDatetime :=
  { wall := dt.wall - dt.tzOffset.getD 0 + target, us := dt.us, tzOffset := some target }

/-- The fixed display zone `Asia/Tokyo` as a UTC offset in seconds (+9h). -/
def tokyoOffset : Int := 32400

/-- Left-pad a numeral to two digits. -/
def pad2 (n : Nat) : String := if n < 10 then "0" ++ toString n else toString n

/-- Left-pad a numeral to four digits. -/
def pad4 (n : Nat) : String :=
  if n < 10 then "000" ++ toString n
  else if n < 100 then "00" ++ toString n
  else if n < 1000 then "0" ++ toString n
  else toString n

/-- Left-pad a numeral to six digits (microseconds). -/
def pad6 (n : Nat) : String :=
  let s := toString n
  String.mk (List.replicate (6 - s.length) '0') ++ s

/-- Render a UTC offset as `±HH:MM` (Python prints no seconds for the
whole-minute offsets in use here). -/
def offsetToIso (off : Int) : String :=
  let sign := if off < 0 then "-" else "+"
  let a := off.natAbs
  sign ++ pad2 (a / 3600) ++ ":" ++ pad2 (a % 3600 / 60)

/-- Python `dt.isoformat()`: `YYYY-MM-DDTHH:MM:SS[.ffffff][±HH:MM]`. -/
def pyIsoformat (dt : PyDatetime) : String :=
  let days := dt.wall.fdiv 86400
  let sod := (dt.wall - days * 86400).toNat
  let ymd := civilFromDays days
  let frac := if dt.us ≠ 0 then "." ++ pad6 dt.us else ""
  let tz := match dt.tzOffset with
    | none => ""
    | some off => offsetToIso off
  pad4 ymd.1.toNat ++ "-" ++ pad2 ymd.2.1 ++ "-" ++ pad2 ymd.2.2 ++ "T" ++
    pad2 (sod / 3600) ++ ":" ++ pad2 (sod % 3600 / 60) ++ ":" ++ pad2 (sod % 60) ++
    frac ++ tz

/-- One decimal digit. -/
def digitVal (c : Char) : Option Nat :=
  if '0' ≤ c ∧ c ≤ '9' then some (c.toNat - 48) else none

/-- Two decimal digits, returning the value and the rest of the input. -/
def read2 : List Char → Option (Nat × List Char)
  | a :: b :: rest => do
    let x ← digitVal a
    let y ← digitVal b
    some (10 * x + y, rest)
  | _ => none

/-- Four decimal digits. -/
def read4 : List Char → Option (Nat × List Char)
  | a :: b :: c :: d :: rest => do
    let x ← digitVal a
    let y ← digitVal b
    let z ← digitVal c
    let w ← digitVal d
    some (1000 * x + 100 * y + 10 * z + w, rest)
  | _ => none

/-- Leading run of decimal digits and the rest of the input. -/
def readDigits : List Char → List Nat × List Char
  | [] => ([], [])
  | c :: cs =>
    match digitVal c with
    | some d =>
      let r := readDigits cs
      (d :: r.1, r.2)
    | none => ([], c :: cs)

/-- Fractional seconds after the dot: one to six digits, scaled to
microseconds. -/
def readFrac (l : List Char) : Option (Nat × List Char) :=
  let r := readDigits l
  if r.1.length = 0 ∨ r.1.length > 6 then none
  else some ((r.1.foldl (fun a d => a * 10 + d) 0) * 10 ^ (6 - r.1.length), r.2)

/-- A UTC offset suffix `±HH:MM[:SS]`, in seconds east of UTC. -/
def readOffset : List Char → Option (Int × List Char)
  | c :: rest =>
    if c = '+' ∨ c = '-' then do
      let (hh, r1) ← read2 rest
      match r1 with
      | ':' :: r2 => do
        let (mm, r3) ← read2 r2
        let (ss, r4) :=
          match r3 with
          | ':' :: r3' =>
            match read2 r3' with
            | some (s, r) => (s, r)
            | none => (0, ':' :: r3')
          | _ => (0, r3)
        let mag : Int := hh * 3600 + mm * 60 + ss
        some (if c = '-' then -mag else mag, r4)
      | _ => none
    else none
  | [] => none

/-- The time-of-day part `HH:MM[:SS[.ffffff]][±HH:MM]`. -/
def readTime (l : List Char) : Option (Nat × Nat × Option Int × List Char) := do
  let (hh, r1) ← read2 l
  match r1 with
  | ':' :: r2 => do
    let (mm, r3) ← read2 r2
    let (ss, us, r6) ←
      match r3 with
      | ':' :: r4 =>
        match read2 r4 with
        | some (ss, r5) =>
          match r5 with
          | '.' :: r5' =>
            match readFrac r5' with
            | some (us, r6) => some (ss, us, r6)
            | none => none
          | _ => some (ss, 0, r5)
        | none => none
      | _ => some (0, 0, r3)
    if hh ≤ 23 ∧ mm ≤ 59 ∧ ss ≤ 59 then
      match readOffset r6 with
      | some (off, r7) => some (hh * 3600 + mm * 60 + ss, us, some off, r7)
      | none => some (hh * 3600 + mm * 60 + ss, us, none, r6)
    else none
  | _ => none

/-- Python `datetime.fromisoformat` for the profile of ISO-8601 strings this
system reads and writes: `YYYY-MM-DD`, optionally followed by `T` or a space
and `HH:MM[:SS[.ffffff]][±HH:MM[:SS]]`.  `none` models the `ValueError` the
library raises on anything else. -/
def pyFromIsoformat (s : String) : Option PyDatetime := do
  let (y, r1) ← read4 s.data
  match r1 with
  | '-' :: r2 => do
    let (m, r3) ← read2 r2
    match r3 with
    | '-' :: r4 => do
      let (d, r5) ← read2 r4
      if 1 ≤ m ∧ m ≤ 12 ∧ 1 ≤ d ∧ d ≤ daysInMonth y m then
        let day : Int := daysFromCivil y m d
        match r5 with
        | [] => some ⟨day * 86400, 0, none⟩
        | sep :: r6 =>
          if sep = 'T' ∨ sep = ' ' then do
            let (sod, us, off, r7) ← readTime r6
            if r7 = [] then some ⟨day * 86400 + sod, us, off⟩ else none
          else none
      else none
    | _ => none
  | _ => none

/-! ## Data model (`videos` and `cameras` tables, Pydantic response models) -/

/-- One row of the `videos` table (the `id` autoincrement column never
surfaces in the API and is omitted; row order in the store list is table
scan / insertion order). -/
structure VideoRow where
  title : String
  tags : String
  location : String
  baseUrl : String
  movieId : String
  createdAt : String
deriving DecidableEq, Repr

/-- The `Video` response model. -/
structure Video where
  title : String
  tags : List String
  location : String
  generateDate : PyDatetime
  baseUrl : String
  movieId : String
  url : String
deriving DecidableEq, Repr

/-- One row of the `cameras` table; the coordinate columns are REAL and only
ever copied, so their type is a parameter. -/
structure CameraRow (α : Type) where
  id : String
  name : String
  latitude : α
  longitude : α
  url : String
deriving DecidableEq, Repr

/-- The `Coordinate` response model. -/
structure Coordinate (α : Type) where
  lat : α
  lng : α
deriving DecidableEq, Repr

/-- The `Camera` response model. -/
structure Camera (α : Type) where
  name : String
  id : String
  coordinate : Coordinate α
  url : String
deriving DecidableEq, Repr

/-- The `ReportRequest` body. -/
structure ReportRequest where
  user : String
  location : String
  title : Option String := none
  tags : Option (List String) := none
  generateDate : Option PyDatetime := none
deriving DecidableEq, Repr

/-- The success body of `POST /report` (the constant `message` field is
omitted). -/
structure ReportResponse where
  user : String
  location : String
  movieId : String
  url : String
deriving DecidableEq, Repr

/-! ## `row_to_video` -/

/-- `row_to_video`: split the comma-delimited `tags` column dropping empty
pieces, parse `createdAt` (empty string means "no timestamp": fall back to the
current time), normalize the timestamp to Asia/Tokyo assuming UTC when naive,
and derive `url` from `baseUrl` and `movieId`.  `none` models the exception
`datetime.fromisoformat` raises on an unparseable `createdAt`.  `now` is the
value `datetime.now(ZoneInfo("Asia/Tokyo"))` would produce. -/
def row_to_video (now : PyDatetime) (row : VideoRow) : Option Video := do
  let tags := if row.tags ≠ "" then (pySplitComma row.tags).filter (· ≠ "") else []
  let created : Option PyDatetime ←
    if row.createdAt ≠ "" then
      match pyFromIsoformat row.createdAt with
      | some dt => some (some dt)
      | none => none
    else some none
  let created := created.map (fun dt =>
    if dt.tzOffset.isNone then astimezone { dt with tzOffset := some 0 } tokyoOffset
    else astimezone dt tokyoOffset)
  some
    { title := row.title
      tags := tags
      location := row.location
      generateDate := created.getD now
      baseUrl := row.baseUrl
      movieId := row.movieId
      url := rstripSlash row.baseUrl ++ "/" ++ row.movieId ++ ".mp4" }

/-! ## `GET /videos` (search) -/

/-- The parsed tag filter: split `tags` on commas, strip, drop empties. -/
def tagFilterList (tags : String) : List String :=
  ((pySplitComma tags).map pyStrip).filter (· ≠ "")

/-- The SQL predicate of one `(',' || tags || ',') LIKE '%,t,%'` clause. -/
def tagClause (t : String) (rowTags : String) : Bool :=
  likeMatch ('%' :: ',' :: (t.data ++ [',', '%'])) (',' :: rowTags.data ++ [','])

/-- The WHERE clause built by `list_videos` for one row. -/
def rowPasses (q : Option String) (tags : Option String) (row : VideoRow) : Bool :=
  (match q with
   | none => true
   | some qs =>
     if qs ≠ "" then
       strLike ("%" ++ qs ++ "%") row.title || strLike ("%" ++ qs ++ "%") row.location
     else true) &&
  (match tags with
   | none => true
   | some ts =>
     if ts ≠ "" then (tagFilterList ts).all (fun t => tagClause t row.tags) else true)

/-- SQLite BINARY text comparison (UTF-8 byte order = codepoint order):
strict less-than on character lists. -/
def chLt : List Char → List Char → Bool
  | [], [] => false
  | [], _ :: _ => true
  | _ :: _, [] => false
  | a :: as, b :: bs => if a < b then true else if b < a then false else chLt as bs

/-- `ORDER BY createdAt DESC` as a total preorder on rows. -/
def createdDescLe (a b : VideoRow) : Prop := chLt a.createdAt.data b.createdAt.data = false

instance : DecidableRel createdDescLe := fun _ _ => instDecidableEqBool _ _

/-- `ORDER BY createdAt ASC` as a total preorder on rows. -/
def createdAscLe (a b : VideoRow) : Prop := chLt b.createdAt.data a.createdAt.data = false

instance : DecidableRel createdAscLe := fun _ _ => instDecidableEqBool _ _

/-- Row-by-row conversion of a result set (the list comprehension
`[row_to_video(r) for r in rows]`): `none` when any row raises. -/
def convertAll (now : PyDatetime) : List VideoRow → Option (List Video)
  | [] => some []
  | r :: rs =>
    match row_to_video now r, convertAll now rs with
    | some v, some vs => some (v :: vs)
    | _, _ => none

/-- `GET /videos`: filter, order newest-first, truncate to `limit`, convert
each row.  Error 500 models the catch-all handler firing when a row's
`createdAt` fails to parse.  (`limit` is range-validated to 1..50 upstream;
the code skips the LIMIT clause when it is 0, which is unreachable but
mirrored here.) -/
def selectRows (store : List VideoRow) (q : Option String) (tags : Option String)
    (limit : Nat) : List VideoRow :=
  let rows := store.filter (rowPasses q tags)
  let rows := List.insertionSort createdDescLe rows
  if limit ≠ 0 then rows.take limit else rows

/-- `GET /videos` result as an `Except` over the selected rows. -/
def list_videos (now : PyDatetime) (store : List VideoRow)
    (q : Option String) (tags : Option String) (limit : Nat) :
    Except Nat (List Video) :=
  match convertAll now (selectRows store q tags limit) with
  | some vids => .ok vids
  | none => .error 500

/-! ## `GET /tags` -/

/-- Keep the first row of each group of rows sharing the same `tags` string:
the representative row SQLite was observed to retain for
`SELECT DISTINCT tags ... ORDER BY createdAt` (a table scan feeding a
de-duplicating temporary B-tree keeps the first-scanned row of each group;
this construct's interaction with `ORDER BY` on a non-selected column is not
contractual, so the embedding fixes the observed behavior). -/
def distinctByTagsAux (seen : List String) : List VideoRow → List VideoRow
  | [] => []
  | r :: rs =>
    if r.tags ∈ seen then distinctByTagsAux seen rs
    else r :: distinctByTagsAux (r.tags :: seen) rs

/-- Keep the first row of each group of rows sharing the same `tags` string
(see the doc comment above). -/
def distinctByTags (l : List VideoRow) : List VideoRow := distinctByTagsAux [] l

/-- The comma-split, stripped, non-empty tokens of one stored tag string
(the Python list comprehension in the `GET /tags` loop). -/
def tagTokens (s : String) : List String :=
  ((pySplitComma s).map pyStrip).filter (· ≠ "")

/-- First-appearance de-duplication (the Python loop with its `seen` set; the
accumulated output is exactly the seen set). -/
def dedupAcc (acc : List String) : List String → List String
  | [] => acc
  | t :: ts => if t ∈ acc then dedupAcc acc ts else dedupAcc (acc ++ [t]) ts

/-- `GET /tags` (current `app/` version): `SELECT DISTINCT tags FROM videos
WHERE tags IS NOT NULL AND tags != '' ORDER BY createdAt ASC`, then
first-appearance token de-duplication in Python. -/
def list_tags (store : List VideoRow) : List String :=
  let rows := store.filter (fun r => r.tags ≠ "")
  let rows := distinctByTags rows
  let rows := List.insertionSort createdAscLe rows
  dedupAcc [] ((rows.map (·.tags)).flatMap tagTokens)

/-- The specification's description of `GET /tags`: every tag string appearing
in any record's tag set, de-duplicated, in order of first appearance when
records are scanned oldest-created-first. -/
def list_tags_spec (store : List VideoRow) : List String :=
  dedupAcc [] (((List.insertionSort createdAscLe store).map (·.tags)).flatMap tagTokens)

/-! ## `POST /videos/bulk` -/

/-- `POST /videos/bulk`.  Returns the response (`none` modelling the
unhandled exception when a fetched row fails to convert) paired with the
number of SQL queries executed, making the empty-input short-circuit
observable.  The Python dict comprehension keeps the last row per `movieId`,
modelled by `getLast?` of the matching rows. -/
def videos_bulk (now : PyDatetime) (store : List VideoRow) (ids : List String) :
    Option (List Video) × Nat :=
  if ids.isEmpty then (some [], 0)
  else
    let rows := store.filter (fun r => r.movieId ∈ ids)
    match convertAll now rows with
    | none => (none, 1)
    | some _ =>
      let lookup := fun id => ((rows.filter (fun r => r.movieId = id)).getLast?).bind (row_to_video now)
      (some (ids.filterMap lookup), 1)

/-! ## `GET /cameras/{id}` -/

/-- `row_to_camera`: plain field copy. -/
def row_to_camera {α : Type} (row : CameraRow α) : Camera α :=
  { name := row.name, id := row.id,
    coordinate := { lat := row.latitude, lng := row.longitude }, url := row.url }

/-- `GET /cameras/{id}`: `SELECT * FROM cameras WHERE id = ?`, 404 when no
row matches.  The error value is the HTTP status code. -/
def get_camera {α : Type} (store : List (CameraRow α)) (id : String) :
    Except Nat (Camera α) :=
  match store.find? (fun r => r.id = id) with
  | some row => .ok (row_to_camera row)
  | none => .error 404

/-! ## `POST /report` (the ingestion pipeline, current `app/` version) -/

/-- The fixed title candidate list `FUTURE_TITLES`. -/
def FUTURE_TITLES : List String :=
  ["未来創造展で最高の作品に出会った！",
   "これが未来だ！テンション爆上げ中！",
   "未来創造展で感動の瞬間をキャッチ！",
   "学生の創造力がヤバすぎる！アガる！",
   "未来創造展2026、熱気がスゴい！",
   "HAL大阪の技術力に圧倒された！",
   "未来を感じてテンションMAX！",
   "クリエイターの情熱に心が震えた！",
   "未来創造展で夢が広がる瞬間！",
   "最先端の技術に出会ってアガりまくり！",
   "こんな作品見たことない！感動！",
   "未来創造展、期待を超えてきた！"]

/-- The hard-coded tag list the current code assigns to every report
(overwriting, contrary to its own comment, any caller-supplied tags). -/
def defaultTags : List String := ["未来創造展", "アガる", "未来創造展2026", "HAL大阪"]

/-- `random.choice`: an element of a non-empty list selected by an arbitrary
index (the randomness oracle). -/
def randomChoice (l : List String) (i : Nat) : String := l.getD (i % l.length) ""

/-- Default of the `R2_PUBLIC_URL` environment variable. -/
def defaultPublicUrl : String := "https://pub-fe496443fb104153b0da8cceaccc6aea.r2.dev"

/-- Outcomes of the pipeline's external effects and its nondeterministic
inputs, fixed per run: the capture fetch (exception, or HTTP status code),
availability of `boto3`, the upload outcome, the `R2_PUBLIC_URL` variable,
the fresh UUID, the random title index, database connectivity, a database
write error, and the current instant (seconds since epoch, UTC) with its
microseconds. -/
structure ReportEnv where
  fetchResult : Except String Nat
  boto3Available : Bool := true
  uploadResult : Except String Unit := .ok ()
  r2PublicUrl : Option String := none
  movieUuid : String
  randomIndex : Nat := 0
  dbAvailable : Bool := true
  dbError : Option String := none
  nowInstant : Int := 0
  nowUs : Nat := 0
deriving Repr

/-- `datetime.now(ZoneInfo("Asia/Tokyo"))` under the environment's clock. -/
def envNowJst (env : ReportEnv) : PyDatetime :=
  { wall := env.nowInstant + tokyoOffset, us := env.nowUs, tzOffset := some tokyoOffset }

/-- Step 3's `createdAt` computation: caller-supplied `generateDate`
(assume UTC when naive, convert to Asia/Tokyo) or the current Tokyo time;
microseconds dropped; rendered with `isoformat`. -/
def computeCreatedAt (generateDate : Option PyDatetime) (nowJst : PyDatetime) : String :=
  let dt :=
    match generateDate with
    | some gd =>
      let gd := if gd.tzOffset.isNone then { gd with tzOffset := some 0 } else gd
      astimezone gd tokyoOffset
    | none => nowJst
  pyIsoformat { dt with us := 0 }

/-- The specification's description of the same computation, phrased by the
absolute instant: the stored string is the ISO rendering, at second precision
in the fixed zone +09:00, of the caller's instant (a naive `generateDate`
read as UTC) or of the current instant. -/
def specCreatedAt (generateDate : Option PyDatetime) (nowInstant : Int) : String :=
  match generateDate with
  | some gd => pyIsoformat { wall := gd.wall - gd.tzOffset.getD 0 + tokyoOffset, us := 0, tzOffset := some tokyoOffset }
  | none => pyIsoformat { wall := nowInstant + tokyoOffset, us := 0, tzOffset := some tokyoOffset }

/-- `POST /report`: fetch from the camera, upload to R2, insert the metadata
row.  Returns the HTTP outcome (error value = status code) and the resulting
`videos` table.  Error statuses: 502 fetch exception / non-200 source status,
500 missing `boto3` / upload failure / database write failure (including a
`movieId` uniqueness violation), 503 database unreachable. -/
def report_agereport (env : ReportEnv) (report : ReportRequest)
    (store : List VideoRow) : Except Nat ReportResponse × List VideoRow :=
  match env.fetchResult with
  | .error _ => (.error 502, store)
  | .ok status =>
    if status ≠ 200 then (.error 502, store)
    else
      let movie_id := env.movieUuid
      let r2_key := movie_id ++ ".mp4"
      if ¬ env.boto3Available then (.error 500, store)
      else
        match env.uploadResult with
        | .error _ => (.error 500, store)
        | .ok _ =>
          let public_url := env.r2PublicUrl.getD defaultPublicUrl
          let file_url := rstripSlash public_url ++ "/" ++ r2_key
          if ¬ env.dbAvailable then (.error 503, store)
          else
            let created_at := computeCreatedAt report.generateDate (envNowJst env)
            let title :=
              match report.title with
              | some t => if t ≠ "" then t else randomChoice FUTURE_TITLES env.randomIndex
              | none => randomChoice FUTURE_TITLES env.randomIndex
            let tags := defaultTags
            let tags_str :=
              if ¬ tags.isEmpty then joinComma ((tags.map pyStrip).filter (· ≠ "")) else ""
            match env.dbError with
            | some _ => (.error 500, store)
            | none =>
              if store.any (fun r => r.movieId = movie_id) then (.error 500, store)
              else
                (.ok { user := report.user, location := report.location,
                       movieId := movie_id, url := file_url },
                 store ++ [{ title := title, tags := tags_str,
                             location := report.location, baseUrl := public_url,
                             movieId := movie_id, createdAt := created_at }])

/-! ## Helper lemmas -/

/-- The stored tag string every successful report receives. -/
def storedDefaultTags : String := "未来創造展,アガる,未来創造展2026,HAL大阪"

/-- The title a successful report stores, as a function of the request and the
randomness oracle. -/
def resolvedTitle (title : Option String) (i : Nat) : String :=
  match title with
  | some t => if t ≠ "" then t else randomChoice FUTURE_TITLES i
  | none => randomChoice FUTURE_TITLES i

/-- Inversion of the success path of `report_agereport`: a `.ok` outcome
pins down every branch condition and the appended row. -/
theorem report_success {env : ReportEnv} {report : ReportRequest}
    {store : List VideoRow} {resp : ReportResponse} {store' : List VideoRow}
    (h : report_agereport env report store = (.ok resp, store')) :
    env.fetchResult = .ok 200 ∧
    resp = { user := report.user, location := report.location,
             movieId := env.movieUuid,
             url := rstripSlash (env.r2PublicUrl.getD defaultPublicUrl) ++ "/" ++
                     (env.movieUuid ++ ".mp4") } ∧
    store' = store ++
      [{ title := resolvedTitle report.title env.randomIndex
         tags := storedDefaultTags
         location := report.location
         baseUrl := env.r2PublicUrl.getD defaultPublicUrl
         movieId := env.movieUuid
         createdAt := computeCreatedAt report.generateDate (envNowJst env) }] := by
  have htags :
      (if ¬ (defaultTags.isEmpty) then joinComma ((defaultTags.map pyStrip).filter (· ≠ "")) else "") =
        storedDefaultTags := by decide
  rcases hf : env.fetchResult with e | st
  · simp [report_agereport, hf] at h
  · by_cases h200 : st = 200
    · subst h200
      by_cases hb : env.boto3Available
      · rcases hu : env.uploadResult with e | u
        · simp [report_agereport, hf, hb, hu] at h
        · by_cases hd : env.dbAvailable
          · rcases he : env.dbError with _ | e
            · by_cases hm : store.any (fun r => r.movieId = env.movieUuid)
              · simp [report_agereport, hf, hb, hu, hd, he, hm] at h
              · simp only [report_agereport, hf, hb, hu, hd, he, hm, htags, not_true_eq_false,
                  Bool.false_eq_true, if_false, ite_false, ite_not, Prod.mk.injEq, ne_eq,
                  not_false_eq_true, if_true, ite_true] at h
                obtain ⟨h1, h2⟩ := h
                refine ⟨rfl, (Except.ok.inj h1).symm, ?_⟩
                rw [← h2]
                unfold resolvedTitle
                cases report.title with
                | none => rfl
                | some t => by_cases ht : t = "" <;> simp [ht]
            · simp [report_agereport, hf, hb, hu, hd, he] at h
          · simp [report_agereport, hf, hb, hu, hd] at h
      · simp [report_agereport, hf, hb] at h
    · simp [report_agereport, hf, h200] at h

/-! ## Claim C9 -/

/-- C9: for every id, `get_camera` returns the stored camera row converted
field-for-field (the coordinate pair exactly as stored) when a row with that
id exists, and fails with 404 NotFound when none does. -/
theorem claim_C9 (α : Type) (store : List (CameraRow α)) (id : String) :
    (∀ row, store.find? (fun r => r.id = id) = some row →
      get_camera store id =
        .ok { name := row.name, id := row.id,
              coordinate := { lat := row.latitude, lng := row.longitude },
              url := row.url }) ∧
    (store.find? (fun r => r.id = id) = none →
      get_camera store id = .error 404) := by
  constructor
  · intro row hfind
    simp [get_camera, hfind, row_to_camera]
  · intro hfind
    simp [get_camera, hfind]

/-- Witness for C9 at a concrete store: the existing id returns the stored
coordinates unmodified, via `claim_C9` itself. -/
theorem claim_C9_witness :
    get_camera [({ id := "cam1", name := "North gate", latitude := (34 : Int),
                   longitude := 135, url := "http://cam1" } : CameraRow Int)] "cam1" =
      .ok { name := "North gate", id := "cam1",
            coordinate := { lat := 34, lng := 135 },
            url := "http://cam1" } :=
  (claim_C9 Int [{ id := "cam1", name := "North gate", latitude := (34 : Int),
                   longitude := 135, url := "http://cam1" }] "cam1").1
    { id := "cam1", name := "North gate", latitude := (34 : Int),
      longitude := 135, url := "http://cam1" } (by rfl)

/-! ## Claim C1 -/

/-- C1: when the capture fetch raises, or the source answers with a non-200
status, the report run aborts with 502 (Bad-Gateway / UpstreamUnavailable)
and the store is unchanged; when the upload fails the run aborts with 500
(Internal / StorageFailure) and the store is unchanged. -/
theorem claim_C1 (env : ReportEnv) (report : ReportRequest) (store : List VideoRow) :
    (∀ e, env.fetchResult = .error e →
      report_agereport env report store = (.error 502, store)) ∧
    (∀ st, env.fetchResult = .ok st → st ≠ 200 →
      report_agereport env report store = (.error 502, store)) ∧
    (∀ e, env.fetchResult = .ok 200 → env.boto3Available = true →
      env.uploadResult = .error e →
      report_agereport env report store = (.error 500, store)) := by
  refine ⟨?_, ?_, ?_⟩
  · intro e hf
    unfold report_agereport
    rw [hf]
  · intro st hf hne
    unfold report_agereport
    rw [hf]
    simp [hne]
  · intro e hf hb hu
    unfold report_agereport
    rw [hf]
    simp [hb, hu]

/-- Witness for C1: a concrete timed-out fetch yields 502 and leaves a
concrete one-row store untouched, via `claim_C1` itself. -/
theorem claim_C1_witness :
    report_agereport
      { fetchResult := .error "ReadTimeout", movieUuid := "uuid-9" }
      { user := "u", location := "osaka" }
      [{ title := "t", tags := "a", location := "l", baseUrl := "b",
         movieId := "m1", createdAt := "2024-01-01T00:00:00+09:00" }] =
      (.error 502,
       [{ title := "t", tags := "a", location := "l", baseUrl := "b",
          movieId := "m1", createdAt := "2024-01-01T00:00:00+09:00" }]) :=
  (claim_C1 _ _ _).1 "ReadTimeout" rfl

/-- `random.choice` of a non-empty list is a member of it, whatever the
randomness oracle chose. -/
theorem randomChoice_mem (l : List String) (i : Nat) (h : l ≠ []) :
    randomChoice l i ∈ l := by
  unfold randomChoice
  have hlen : 0 < l.length := List.length_pos.mpr h
  have hi : i % l.length < l.length := Nat.mod_lt _ hlen
  rw [List.getD_eq_getElem l "" hi]
  exact List.getElem_mem hi

/-! ## Claim C8 -/

/-- C8: on every successful report the stored title is the caller-supplied
title when a (non-empty, by Python truthiness — see C10) one is present, and
otherwise an element of the fixed candidate list `FUTURE_TITLES`, whichever
index the randomness oracle chose. -/
theorem claim_C8 (env : ReportEnv) (report : ReportRequest) (store : List VideoRow)
    (resp : ReportResponse) (store' : List VideoRow)
    (h : report_agereport env report store = (.ok resp, store')) :
    ∃ row, store' = store ++ [row] ∧
      ((∃ t, report.title = some t ∧ t ≠ "" ∧ row.title = t) ∨
       ((report.title = none ∨ report.title = some "") ∧ row.title ∈ FUTURE_TITLES)) := by
  obtain ⟨-, -, hstore⟩ := report_success h
  refine ⟨_, hstore, ?_⟩
  rcases ht : report.title with _ | t
  · exact Or.inr ⟨Or.inl rfl, by
      simpa [resolvedTitle, ht] using randomChoice_mem FUTURE_TITLES env.randomIndex (by decide)⟩
  · by_cases he : t = ""
    · subst he
      exact Or.inr ⟨Or.inr rfl, by
        simpa [resolvedTitle, ht] using randomChoice_mem FUTURE_TITLES env.randomIndex (by decide)⟩
    · exact Or.inl ⟨t, rfl, he, by simp [resolvedTitle, ht, he]⟩

/-- Witness for C8: a concrete successful report with caller title `"花火"`
stores exactly that title, via `claim_C8` itself. -/
theorem claim_C8_witness :
    ∃ row, ([] : List VideoRow) ++ [row] = [] ++ [row] ∧
      ((∃ t, (some "花火" : Option String) = some t ∧ t ≠ "" ∧ row.title = t) ∨
       (((some "花火" : Option String) = none ∨ (some "花火" : Option String) = some "") ∧
        row.title ∈ FUTURE_TITLES)) := by
  obtain ⟨row, hrow, hp⟩ :=
    claim_C8 { fetchResult := .ok 200, movieUuid := "uuid-1" }
      { user := "u", location := "osaka", title := some "花火" } [] _ _ rfl
  exact ⟨row, rfl, hp⟩

/-! ## Claim C10 -/

/-- C10: a report whose `title` field is the empty string is treated as if no
title were supplied (Python truthiness): the stored title is one of the
defaults and never the empty string. -/
theorem claim_C10 (env : ReportEnv) (report : ReportRequest) (store : List VideoRow)
    (resp : ReportResponse) (store' : List VideoRow)
    (hempty : report.title = some "")
    (h : report_agereport env report store = (.ok resp, store')) :
    ∃ row, store' = store ++ [row] ∧ row.title ∈ FUTURE_TITLES ∧ row.title ≠ "" := by
  obtain ⟨-, -, hstore⟩ := report_success h
  refine ⟨_, hstore, ?_⟩
  have hmem : resolvedTitle report.title env.randomIndex ∈ FUTURE_TITLES := by
    simpa [resolvedTitle, hempty] using
      randomChoice_mem FUTURE_TITLES env.randomIndex (by decide)
  refine ⟨hmem, ?_⟩
  have hne : ∀ t ∈ FUTURE_TITLES, t ≠ "" := by decide
  exact hne _ hmem

/-- Witness for C10: a concrete report with `title = ""` stores a default
title from the candidate list, via `claim_C10` itself. -/
theorem claim_C10_witness :
    ∃ row, ([] : List VideoRow) ++ [row] = [] ++ [row] ∧
      row.title ∈ FUTURE_TITLES ∧ row.title ≠ "" := by
  obtain ⟨row, hrow, hp⟩ :=
    claim_C10 { fetchResult := .ok 200, movieUuid := "uuid-1" }
      { user := "u", location := "osaka", title := some "" } [] _ _ rfl rfl
  exact ⟨row, rfl, hp⟩

/-! ## Claim C6 -/

/-- `computeCreatedAt` agrees with the instant-level description
`specCreatedAt`: the code's wall-clock arithmetic realizes "same absolute
instant, rendered in the fixed zone +09:00, truncated to seconds". -/
theorem computeCreatedAt_eq_spec (gd : Option PyDatetime) (env : ReportEnv) :
    computeCreatedAt gd (envNowJst env) = specCreatedAt gd env.nowInstant := by
  rcases gd with _ | g
  · simp [computeCreatedAt, specCreatedAt, envNowJst]
  · rcases hz : g.tzOffset with _ | off <;>
      simp [computeCreatedAt, specCreatedAt, astimezone, hz]

/-- C6: on every successful report the persisted `createdAt` is the ISO-8601
rendering, in the fixed zone Asia/Tokyo (+09:00) and truncated to second
precision, of the caller-supplied `generateDate` instant (a naive value being
read as UTC), or of the current instant when no `generateDate` was given. -/
theorem claim_C6 (env : ReportEnv) (report : ReportRequest) (store : List VideoRow)
    (resp : ReportResponse) (store' : List VideoRow)
    (h : report_agereport env report store = (.ok resp, store')) :
    ∃ row, store' = store ++ [row] ∧
      row.createdAt = specCreatedAt report.generateDate env.nowInstant := by
  obtain ⟨-, -, hstore⟩ := report_success h
  exact ⟨_, hstore, computeCreatedAt_eq_spec report.generateDate env⟩

/-- Witness for C6: a concrete report carrying the naive `generateDate`
2026-01-15 00:30:00 (read as UTC) persists `"2026-01-15T09:30:00+09:00"`,
via `claim_C6` itself. -/
theorem claim_C6_witness :
    ∃ row, ([] : List VideoRow) ++ [row] = [] ++ [row] ∧
      row.createdAt =
        specCreatedAt (some { wall := daysFromCivil 2026 1 15 * 86400 + 1800, us := 250000,
                              tzOffset := none }) 0 ∧
      specCreatedAt (some { wall := daysFromCivil 2026 1 15 * 86400 + 1800, us := 250000,
                            tzOffset := none }) 0 = "2026-01-15T09:30:00+09:00" := by
  obtain ⟨row, hrow, hp⟩ :=
    claim_C6 { fetchResult := .ok 200, movieUuid := "uuid-1" }
      { user := "u", location := "osaka",
        generateDate := some { wall := daysFromCivil 2026 1 15 * 86400 + 1800, us := 250000,
                               tzOffset := none } } [] _ _ rfl
  exact ⟨row, rfl, hp, by decide⟩

/-! ## Claim C2 (code bug)

The code's own comment says request-supplied values take priority
(`title/tags はリクエストの値を優先`), and the previous revision
(`src/agaru_up_api.py`) implements exactly that for tags; in the current
`src/app/agaru_up_api.py` the local `tags` variable is overwritten with the
hard-coded default list before the join, so a caller-supplied tag list is
ignored.  The theorem evaluates the pipeline at the failing input. -/

/-- C2 evidence: a successful report carrying caller tags `["myTag"]` stores
the fixed default tag string, not the joined caller list. -/
theorem claim_C2 :
    ((report_agereport { fetchResult := .ok 200, movieUuid := "uuid-1" }
        { user := "u", location := "osaka", tags := some ["myTag"] } []).2.map
      (fun r => r.tags)) = [storedDefaultTags] ∧
    storedDefaultTags ≠ joinComma (((["myTag"] : List String).map pyStrip).filter (· ≠ "")) := by
  exact ⟨by decide, by decide⟩

/-! ## Claim C7 (code bug)

Same root cause as C2: the end-to-end round trip "insert with
`tags=["a","b"]`, re-read, observe `["a","b"]`" fails because the pipeline
discards the caller's tags.  The url derivation half of the claim does hold
and is evaluated below. -/

/-- C7 evidence: a report carrying `tags = ["a","b"]` succeeds, and re-reading
the new record through `videos_bulk` reports the fixed default tags, not
`["a","b"]`; the returned `url` does equal
`baseUrl.rstrip("/") + "/" + movieId + ".mp4"`. -/
theorem claim_C7 :
    ((videos_bulk { wall := 32400, us := 0, tzOffset := some 32400 }
        (report_agereport { fetchResult := .ok 200, movieUuid := "uuid-1" }
          { user := "u", location := "osaka", title := some "T",
            tags := some ["a", "b"],
            generateDate := some { wall := 0, us := 0, tzOffset := some 0 } } []).2
        ["uuid-1"]).1.map
      (fun vs => vs.map (fun v => (v.tags, v.url, v.baseUrl, v.movieId)))) =
      some [(["未来創造展", "アガる", "未来創造展2026", "HAL大阪"],
             "https://pub-fe496443fb104153b0da8cceaccc6aea.r2.dev/uuid-1.mp4",
             "https://pub-fe496443fb104153b0da8cceaccc6aea.r2.dev", "uuid-1")] ∧
    (["未来創造展", "アガる", "未来創造展2026", "HAL大阪"] : List String) ≠ ["a", "b"] ∧
    "https://pub-fe496443fb104153b0da8cceaccc6aea.r2.dev/uuid-1.mp4" =
      rstripSlash "https://pub-fe496443fb104153b0da8cceaccc6aea.r2.dev" ++ "/" ++
        "uuid-1" ++ ".mp4" := by
  exact ⟨by decide, by decide, by decide⟩

/-! ## Claim C5 -/

/-- Conversion succeeds on a result set whose rows all convert. -/
theorem convertAll_isSome {now : PyDatetime} {l : List VideoRow}
    (h : ∀ r ∈ l, (row_to_video now r).isSome) : ∃ vs, convertAll now l = some vs := by
  induction l with
  | nil => exact ⟨[], rfl⟩
  | cons r rs ih =>
    obtain ⟨v, hv⟩ := Option.isSome_iff_exists.mp (h r (by simp))
    obtain ⟨vs, hvs⟩ := ih (fun x hx => h x (by simp [hx]))
    exact ⟨v :: vs, by simp [convertAll, hv, hvs]⟩

/-- `find?` is the head of the filtered list. -/
theorem find?_eq_head_filter (p : VideoRow → Bool) (l : List VideoRow) :
    l.find? p = (l.filter p).head? := by
  induction l with
  | nil => rfl
  | cons r rs ih =>
    by_cases hp : p r
    · simp [List.find?, List.filter, hp]
    · simp only [List.find?, List.filter, hp, Bool.false_eq_true, if_false, cond_false]
      exact ih

/-- A list of at most one element has equal head and last. -/
theorem getLast?_eq_head?_of_len_le_one {l : List VideoRow} (h : l.length ≤ 1) :
    l.getLast? = l.head? := by
  match l with
  | [] => rfl
  | [r] => rfl
  | a :: b :: t => simp at h

/-- With pairwise-distinct `movieId`s, at most one row matches a given id. -/
theorem filter_movieId_len_le_one {store : List VideoRow} (id : String)
    (h : (store.map (fun r => r.movieId)).Nodup) :
    (store.filter (fun r => r.movieId = id)).length ≤ 1 := by
  induction store with
  | nil => simp
  | cons r rs ih =>
    simp only [List.map_cons, List.nodup_cons] at h
    by_cases hr : r.movieId = id
    · have hnil : rs.filter (fun x => x.movieId = id) = [] := by
        rw [List.filter_eq_nil_iff]
        intro x hx
        simp only [decide_eq_true_eq]
        intro hxid
        exact h.1 (hr ▸ hxid ▸ List.mem_map_of_mem (fun r => r.movieId) hx)
      simp [List.filter, hr, hnil]
    · simpa [List.filter, hr] using ih h.2

/-- Filtering first by "requested" and then by one requested id is filtering
by that id alone. -/
theorem filter_mem_filter_eq {store : List VideoRow} {ids : List String} {id : String}
    (hid : id ∈ ids) :
    ((store.filter (fun r => r.movieId ∈ ids)).filter (fun r => r.movieId = id)) =
      store.filter (fun r => r.movieId = id) := by
  induction store with
  | nil => rfl
  | cons r rs ih =>
    by_cases hr : r.movieId = id
    · have hmem : r.movieId ∈ ids := hr ▸ hid
      simp [List.filter, hr, hmem, hid, ih]
    · by_cases hm : r.movieId ∈ ids
      · simp [List.filter, hr, hm, ih]
      · simp [List.filter, hr, hm, ih]

/-- C5: with a well-formed store (unique `movieId`s, every row convertible),
`videos_bulk` returns exactly the requested ids' records in request order and
multiplicity, silently dropping unknown ids, and executes no SQL query when
the input id list is empty. -/
theorem claim_C5 (now : PyDatetime) (store : List VideoRow) (ids : List String)
    (hconv : ∀ r ∈ store, (row_to_video now r).isSome)
    (hnodup : (store.map (fun r => r.movieId)).Nodup) :
    (videos_bulk now store ids).1 =
      some (ids.filterMap
        (fun id => (store.find? (fun r => r.movieId = id)).bind (row_to_video now))) ∧
    (ids = [] → (videos_bulk now store ids).2 = 0) := by
  constructor
  · match hids : ids with
    | [] => simp [videos_bulk]
    | i :: is =>
      rw [videos_bulk]
      simp only [List.isEmpty_cons, Bool.false_eq_true, if_false]
      obtain ⟨vs, hvs⟩ := convertAll_isSome
        (fun r hr => hconv r (List.mem_of_mem_filter hr))
      rw [hvs]
      refine congrArg some (List.filterMap_congr ?_)
      intro id hid
      rw [filter_mem_filter_eq hid,
        getLast?_eq_head?_of_len_le_one (filter_movieId_len_le_one id hnodup),
        ← find?_eq_head_filter]
  · intro h
    subst h
    rfl

/-- Witness for C5, the specification's own example: over a store holding
`uuid-1` and `uuid-2`, requesting `["uuid-2","missing","uuid-2","uuid-1"]`
returns record 2, record 2, record 1 — order and duplicates preserved,
unknowns dropped — via `claim_C5` itself. -/
theorem claim_C5_witness :
    (∀ r ∈ [({ title := "t1", tags := "a", location := "l1", baseUrl := "http://b",
               movieId := "uuid-1", createdAt := "2024-01-01T00:00:00+09:00" } : VideoRow),
            { title := "t2", tags := "b", location := "l2", baseUrl := "http://b",
              movieId := "uuid-2", createdAt := "2024-01-02T00:00:00+09:00" }],
        (row_to_video { wall := 0, us := 0, tzOffset := some 32400 } r).isSome) ∧
    (videos_bulk { wall := 0, us := 0, tzOffset := some 32400 }
        [{ title := "t1", tags := "a", location := "l1", baseUrl := "http://b",
           movieId := "uuid-1", createdAt := "2024-01-01T00:00:00+09:00" },
         { title := "t2", tags := "b", location := "l2", baseUrl := "http://b",
           movieId := "uuid-2", createdAt := "2024-01-02T00:00:00+09:00" }]
        ["uuid-2", "missing", "uuid-2", "uuid-1"]).1 =
      some (["uuid-2", "missing", "uuid-2", "uuid-1"].filterMap
        (fun id =>
          ([({ title := "t1", tags := "a", location := "l1", baseUrl := "http://b",
               movieId := "uuid-1", createdAt := "2024-01-01T00:00:00+09:00" } : VideoRow),
            { title := "t2", tags := "b", location := "l2", baseUrl := "http://b",
              movieId := "uuid-2", createdAt := "2024-01-02T00:00:00+09:00" }].find?
              (fun r => r.movieId = id)).bind
            (row_to_video { wall := 0, us := 0, tzOffset := some 32400 }))) ∧
    (["uuid-2", "missing", "uuid-2", "uuid-1"].filterMap
        (fun id =>
          ([({ title := "t1", tags := "a", location := "l1", baseUrl := "http://b",
               movieId := "uuid-1", createdAt := "2024-01-01T00:00:00+09:00" } : VideoRow),
            { title := "t2", tags := "b", location := "l2", baseUrl := "http://b",
              movieId := "uuid-2", createdAt := "2024-01-02T00:00:00+09:00" }].find?
              (fun r => r.movieId = id)).bind
            (row_to_video { wall := 0, us := 0, tzOffset := some 32400 }))).map
        (fun v => v.movieId) = ["uuid-2", "uuid-2", "uuid-1"] :=
  ⟨by decide,
   (claim_C5 _ _ _ (by decide) (by decide)).1,
   by decide⟩

/-! ## Claim C4 -/

/-- `chLt` (SQLite BINARY text order) is asymmetric. -/
theorem chLt_asymm : ∀ {a b : List Char}, chLt a b = true → chLt b a = false := by
  intro a
  induction a with
  | nil => intro b h; cases b <;> simp_all [chLt]
  | cons x xs ih =>
    intro b h
    cases b with
    | nil => simp [chLt] at h
    | cons y ys =>
      simp only [chLt] at h ⊢
      by_cases h1 : x < y
      · rw [if_neg (asymm h1), if_pos h1]
      · by_cases h2 : y < x
        · rw [if_neg h1, if_pos h2] at h
          cases h
        · rw [if_neg h1, if_neg h2] at h
          rw [if_neg h2, if_neg h1]
          exact ih h

/-- The row order used in the C4 hypothesis: strictly increasing `createdAt`
strings in table (insertion) order. -/
def rowLt (a b : VideoRow) : Prop := chLt a.createdAt.data b.createdAt.data = true

instance : DecidableRel rowLt := fun _ _ => instDecidableEqBool _ _

/-- Strictly increasing rows are sorted for the ASC comparator. -/
theorem sorted_asc_of_pairwise {l : List VideoRow} (h : l.Pairwise rowLt) :
    List.Sorted createdAscLe l :=
  h.imp (fun hab => chLt_asymm hab)

/-- `distinctByTagsAux` keeps a subsequence of its input. -/
theorem distinctByTagsAux_sublist :
    ∀ (l : List VideoRow) (seen : List String), List.Sublist (distinctByTagsAux seen l) l := by
  intro l
  induction l with
  | nil => intro seen; exact List.Sublist.refl _
  | cons r rs ih =>
    intro seen
    rw [distinctByTagsAux]
    by_cases h : r.tags ∈ seen
    · rw [if_pos h]
      exact (ih seen).cons r
    · rw [if_neg h]
      exact (ih (r.tags :: seen)).cons₂ r

/-- `distinctByTags` keeps a subsequence of its input. -/
theorem distinctByTags_sublist (l : List VideoRow) : List.Sublist (distinctByTags l) l :=
  distinctByTagsAux_sublist l []

/-- Rows with an empty tag string contribute no tokens, so the SQL `WHERE
tags != ''` filter does not change the flattened token stream. -/
theorem flatMap_filter_tags (l : List VideoRow) :
    ((l.filter (fun r => r.tags ≠ "")).map (fun r => r.tags)).flatMap tagTokens =
      (l.map (fun r => r.tags)).flatMap tagTokens := by
  have h0 : tagTokens "" = [] := by decide
  induction l with
  | nil => rfl
  | cons r rs ih =>
    by_cases h : r.tags = ""
    · rw [List.filter_cons, if_neg (by simp [h]), ih, List.map_cons, List.flatMap_cons, h, h0,
        List.nil_append]
    · rw [List.filter_cons, if_pos (by simp [h]), List.map_cons, List.map_cons,
        List.flatMap_cons, List.flatMap_cons, ih]

/-- Processing a concatenation is processing the parts in sequence. -/
theorem dedupAcc_append (acc xs ys : List String) :
    dedupAcc acc (xs ++ ys) = dedupAcc (dedupAcc acc xs) ys := by
  induction xs generalizing acc with
  | nil => rfl
  | cons t ts ih => by_cases h : t ∈ acc <;> simp [dedupAcc, h, ih]

/-- Tokens already seen change nothing. -/
theorem dedupAcc_of_subset {acc ts : List String} (h : ∀ t ∈ ts, t ∈ acc) :
    dedupAcc acc ts = acc := by
  induction ts with
  | nil => rfl
  | cons t ts ih =>
    rw [dedupAcc, if_pos (h t (by simp))]
    exact ih fun x hx => h x (by simp [hx])

/-- The accumulated output only grows. -/
theorem mem_dedupAcc_of_mem_acc {x : String} {acc ts : List String} (h : x ∈ acc) :
    x ∈ dedupAcc acc ts := by
  induction ts generalizing acc with
  | nil => exact h
  | cons t ts ih =>
    by_cases ht : t ∈ acc
    · rw [dedupAcc, if_pos ht]; exact ih h
    · rw [dedupAcc, if_neg ht]; exact ih (by simp [h])

/-- Every processed token ends up in the output. -/
theorem mem_dedupAcc_of_mem {t : String} {ts acc : List String} (h : t ∈ ts) :
    t ∈ dedupAcc acc ts := by
  induction ts generalizing acc with
  | nil => cases h
  | cons s ss ih =>
    rcases List.mem_cons.mp h with heq | hm
    · subst heq
      by_cases hs : t ∈ acc
      · rw [dedupAcc, if_pos hs]; exact mem_dedupAcc_of_mem_acc hs
      · rw [dedupAcc, if_neg hs]; exact mem_dedupAcc_of_mem_acc (by simp)
    · by_cases hs : s ∈ acc
      · rw [dedupAcc, if_pos hs]; exact ih hm
      · rw [dedupAcc, if_neg hs]; exact ih hm

/-- The SQL `DISTINCT tags` collapse does not change the de-duplicated token
stream: every dropped row repeats the tag string of an already-seen row, so
all its tokens are already in the accumulator. -/
theorem dedupAcc_flat_distinctAux :
    ∀ (l : List VideoRow) (seen : List String) (acc : List String),
      (∀ s ∈ seen, ∀ t ∈ tagTokens s, t ∈ acc) →
      dedupAcc acc (((distinctByTagsAux seen l).map (fun r => r.tags)).flatMap tagTokens) =
        dedupAcc acc ((l.map (fun r => r.tags)).flatMap tagTokens) := by
  intro l
  induction l with
  | nil => intro seen acc _; rfl
  | cons r rs ih =>
    intro seen acc hseen
    rw [distinctByTagsAux]
    by_cases h : r.tags ∈ seen
    · rw [if_pos h, List.map_cons, List.flatMap_cons, dedupAcc_append,
        dedupAcc_of_subset (hseen r.tags h)]
      exact ih seen acc hseen
    · rw [if_neg h, List.map_cons, List.map_cons, List.flatMap_cons, List.flatMap_cons,
        dedupAcc_append, dedupAcc_append]
      refine ih (r.tags :: seen) _ ?_
      intro s hs t ht
      rcases List.mem_cons.mp hs with heq | hmem
      · exact heq ▸ mem_dedupAcc_of_mem ht
      · exact mem_dedupAcc_of_mem_acc (hseen s hmem t ht)

/-- C4 (amended): when the rows' `createdAt` strings are strictly increasing
in table order — i.e. the oldest-created-first scan coincides with insertion
order, which is the pipeline's normal clock-driven case — `list_tags` returns
every tag string appearing in any record's tag set, de-duplicated, in order
of first appearance scanning oldest-created-first. -/
theorem claim_C4 (store : List VideoRow) (hmono : store.Pairwise rowLt) :
    list_tags store = list_tags_spec store := by
  have hfil : (store.filter (fun r => r.tags ≠ "")).Pairwise rowLt :=
    hmono.sublist (List.filter_sublist store)
  have hdist : (distinctByTags (store.filter (fun r => r.tags ≠ ""))).Pairwise rowLt :=
    hfil.sublist (distinctByTags_sublist _)
  simp only [list_tags, list_tags_spec,
    (sorted_asc_of_pairwise hdist).insertionSort_eq,
    (sorted_asc_of_pairwise hmono).insertionSort_eq]
  rw [distinctByTags, dedupAcc_flat_distinctAux _ [] _ (by simp), flatMap_filter_tags]

/-- Witness for C4 at the specification's own example (three rows, increasing
`createdAt`): the code and the spec description agree and yield
`["大阪駅","tag2","tag3","梅田"]`, via `claim_C4` itself. -/
theorem claim_C4_witness :
    list_tags
        [{ title := "t1", tags := "大阪駅,tag2,tag3", location := "l", baseUrl := "b",
           movieId := "m1", createdAt := "2024-01-01T00:00:00+09:00" },
         { title := "t2", tags := "梅田,tag2", location := "l", baseUrl := "b",
           movieId := "m2", createdAt := "2024-01-02T00:00:00+09:00" },
         { title := "t3", tags := "大阪駅,tag3", location := "l", baseUrl := "b",
           movieId := "m3", createdAt := "2024-01-03T00:00:00+09:00" }] =
      list_tags_spec
        [{ title := "t1", tags := "大阪駅,tag2,tag3", location := "l", baseUrl := "b",
           movieId := "m1", createdAt := "2024-01-01T00:00:00+09:00" },
         { title := "t2", tags := "梅田,tag2", location := "l", baseUrl := "b",
           movieId := "m2", createdAt := "2024-01-02T00:00:00+09:00" },
         { title := "t3", tags := "大阪駅,tag3", location := "l", baseUrl := "b",
           movieId := "m3", createdAt := "2024-01-03T00:00:00+09:00" }] ∧
    list_tags_spec
        [{ title := "t1", tags := "大阪駅,tag2,tag3", location := "l", baseUrl := "b",
           movieId := "m1", createdAt := "2024-01-01T00:00:00+09:00" },
         { title := "t2", tags := "梅田,tag2", location := "l", baseUrl := "b",
           movieId := "m2", createdAt := "2024-01-02T00:00:00+09:00" },
         { title := "t3", tags := "大阪駅,tag3", location := "l", baseUrl := "b",
           movieId := "m3", createdAt := "2024-01-03T00:00:00+09:00" }] =
      ["大阪駅", "tag2", "tag3", "梅田"] :=
  ⟨claim_C4 _ (by decide), by decide⟩

/-- Counterexample for C4 as stated: when a later-inserted row carries an
older `createdAt` (possible through a caller-supplied `generateDate`), the
`DISTINCT` collapse keeps the first-scanned row of the duplicated tag string
`"z"` — the one with the newest `createdAt` — so `"z"` is reported last,
while the claimed oldest-created-first scan reports it first. -/
theorem claim_C4_cex :
    list_tags
        [{ title := "t1", tags := "z", location := "l", baseUrl := "b",
           movieId := "m1", createdAt := "2024-01-09T00:00:00+09:00" },
         { title := "t2", tags := "a", location := "l", baseUrl := "b",
           movieId := "m2", createdAt := "2024-01-02T00:00:00+09:00" },
         { title := "t3", tags := "z", location := "l", baseUrl := "b",
           movieId := "m3", createdAt := "2024-01-01T00:00:00+09:00" },
         { title := "t4", tags := "m", location := "l", baseUrl := "b",
           movieId := "m4", createdAt := "2024-01-05T00:00:00+09:00" }] = ["a", "m", "z"] ∧
    list_tags_spec
        [{ title := "t1", tags := "z", location := "l", baseUrl := "b",
           movieId := "m1", createdAt := "2024-01-09T00:00:00+09:00" },
         { title := "t2", tags := "a", location := "l", baseUrl := "b",
           movieId := "m2", createdAt := "2024-01-02T00:00:00+09:00" },
         { title := "t3", tags := "z", location := "l", baseUrl := "b",
           movieId := "m3", createdAt := "2024-01-01T00:00:00+09:00" },
         { title := "t4", tags := "m", location := "l", baseUrl := "b",
           movieId := "m4", createdAt := "2024-01-05T00:00:00+09:00" }] = ["z", "a", "m"] ∧
    (["a", "m", "z"] : List String) ≠ ["z", "a", "m"] :=
  ⟨by decide, by decide, by decide⟩

/-! ## Claim C3 -/

/-- The `LIKE` matcher does not depend on the fuel once the fuel exceeds the
total input size. -/
theorem likeAux_irrel :
    ∀ (f₁ f₂ : Nat) (p s : List Char), p.length + s.length < f₁ →
      p.length + s.length < f₂ → likeAux f₁ p s = likeAux f₂ p s := by
  intro f₁
  induction f₁ with
  | zero => intro f₂ p s h₁ _; exact absurd h₁ (Nat.not_lt_zero _)
  | succ f₁ ih =>
    intro f₂ p s h₁ h₂
    match f₂ with
    | 0 => exact absurd h₂ (Nat.not_lt_zero _)
    | f₂ + 1 =>
      match p with
      | [] => rfl
      | p :: ps =>
        simp only [List.length_cons] at h₁ h₂
        simp only [likeAux]
        by_cases hp : p = '%'
        · rw [if_pos hp, if_pos hp]
          have e₁ : likeAux f₁ ps s = likeAux f₂ ps s := ih f₂ ps s (by omega) (by omega)
          match s with
          | [] => rw [e₁]
          | c :: cs =>
            have e₂ : likeAux f₁ (p :: ps) cs = likeAux f₂ (p :: ps) cs := by
              refine ih f₂ (p :: ps) cs ?_ ?_ <;> simp only [List.length_cons] <;>
                simp only [List.length_cons] at h₁ h₂ <;> omega
            dsimp only
            rw [e₁, e₂]
        · rw [if_neg hp, if_neg hp]
          match s with
          | [] => rfl
          | c :: cs =>
            simp only [List.length_cons] at h₁ h₂
            have e : likeAux f₁ ps cs = likeAux f₂ ps cs := ih f₂ ps cs (by omega) (by omega)
            dsimp only
            by_cases hu : p = '_'
            · rw [if_pos hu, if_pos hu, e]
            · rw [if_neg hu, if_neg hu, e]

/-- Any sufficient fuel computes `likeMatch`. -/
theorem likeAux_eq_likeMatch {f : Nat} {p s : List Char}
    (h : p.length + s.length < f) : likeAux f p s = likeMatch p s :=
  likeAux_irrel f (p.length + s.length + 1) p s h (Nat.lt_succ_self _)

/-- One computation step of `likeAux`, `%` head, empty subject. -/
theorem likeAux_succ_percent_nil (f : Nat) (ps : List Char) :
    likeAux (f + 1) ('%' :: ps) [] = (likeAux f ps [] || false) := rfl

/-- One computation step of `likeAux`, `%` head, non-empty subject. -/
theorem likeAux_succ_percent_cons (f : Nat) (ps cs : List Char) (c : Char) :
    likeAux (f + 1) ('%' :: ps) (c :: cs) =
      (likeAux f ps (c :: cs) || likeAux f ('%' :: ps) cs) := rfl

/-- One computation step of `likeAux`, literal head, empty subject. -/
theorem likeAux_succ_lit_nil (f : Nat) (p : Char) (ps : List Char) (hp : p ≠ '%') :
    likeAux (f + 1) (p :: ps) [] = false := by
  have h : likeAux (f + 1) (p :: ps) [] =
      (if p = '%' then likeAux f ps [] || false else false) := rfl
  rw [h, if_neg hp]

/-- One computation step of `likeAux`, literal head, non-empty subject. -/
theorem likeAux_succ_lit_cons (f : Nat) (p c : Char) (ps cs : List Char) (hp : p ≠ '%') :
    likeAux (f + 1) (p :: ps) (c :: cs) =
      (if p = '_' then likeAux f ps cs else eqCI p c && likeAux f ps cs) := by
  have h : likeAux (f + 1) (p :: ps) (c :: cs) =
      (if p = '%' then likeAux f ps (c :: cs) || likeAux f (p :: ps) cs
       else if p = '_' then likeAux f ps cs else eqCI p c && likeAux f ps cs) := rfl
  rw [h, if_neg hp]

/-- Unfolding: a leading `%` either matches nothing or swallows one subject
character. -/
theorem likeMatch_percent_unfold (ps s : List Char) :
    likeMatch ('%' :: ps) s =
      (likeMatch ps s ||
        (match s with
         | [] => false
         | _ :: cs => likeMatch ('%' :: ps) cs)) := by
  match s with
  | [] =>
    show likeMatch ('%' :: ps) [] = (likeMatch ps [] || false)
    unfold likeMatch
    rw [likeAux_succ_percent_nil]
    have e : likeAux (('%' :: ps).length + ([] : List Char).length) ps [] =
        likeAux (ps.length + ([] : List Char).length + 1) ps [] := by
      apply likeAux_irrel
      · simp only [List.length_cons, List.length_nil]; omega
      · simp only [List.length_cons, List.length_nil]; omega
    rw [e]
  | c :: cs =>
    show likeMatch ('%' :: ps) (c :: cs) = (likeMatch ps (c :: cs) || likeMatch ('%' :: ps) cs)
    unfold likeMatch
    rw [likeAux_succ_percent_cons]
    have e₁ : likeAux (('%' :: ps).length + (c :: cs).length) ps (c :: cs) =
        likeAux (ps.length + (c :: cs).length + 1) ps (c :: cs) := by
      apply likeAux_irrel
      · simp only [List.length_cons]; omega
      · simp only [List.length_cons]; omega
    have e₂ : likeAux (('%' :: ps).length + (c :: cs).length) ('%' :: ps) cs =
        likeAux (('%' :: ps).length + cs.length + 1) ('%' :: ps) cs := by
      apply likeAux_irrel
      · simp only [List.length_cons]; omega
      · simp only [List.length_cons]; omega
    rw [e₁, e₂]

/-- Unfolding: a literal (or `_`) pattern head consumes exactly one subject
character. -/
theorem likeMatch_cons_unfold (p : Char) (ps s : List Char) (hp : p ≠ '%') :
    likeMatch (p :: ps) s =
      (match s with
       | [] => false
       | c :: cs => if p = '_' then likeMatch ps cs else eqCI p c && likeMatch ps cs) := by
  match s with
  | [] =>
    show likeMatch (p :: ps) [] = false
    unfold likeMatch
    exact likeAux_succ_lit_nil _ _ _ hp
  | c :: cs =>
    show likeMatch (p :: ps) (c :: cs) =
      (if p = '_' then likeMatch ps cs else eqCI p c && likeMatch ps cs)
    unfold likeMatch
    rw [likeAux_succ_lit_cons _ _ _ _ _ hp]
    have e : likeAux ((p :: ps).length + (c :: cs).length) ps cs =
        likeAux (ps.length + cs.length + 1) ps cs := by
      apply likeAux_irrel
      · simp only [List.length_cons]; omega
      · omega
    rw [e]

/-- A match against `% ++ rest` splits the subject: some prefix is swallowed
by the `%` and the remainder matches `rest`. -/
theorem likeMatch_percent_elim :
    ∀ (s : List Char) {ps : List Char}, likeMatch ('%' :: ps) s = true →
      ∃ u v, s = u ++ v ∧ likeMatch ps v = true := by
  intro s
  induction s with
  | nil =>
    intro ps h
    rw [likeMatch_percent_unfold] at h
    simp only [Bool.or_false] at h
    exact ⟨[], [], rfl, h⟩
  | cons c cs ih =>
    intro ps h
    rw [likeMatch_percent_unfold] at h
    rcases Bool.or_eq_true_iff.mp h with h1 | h2
    · exact ⟨[], c :: cs, rfl, h1⟩
    · obtain ⟨u, v, huv, hv⟩ := ih h2
      exact ⟨c :: u, v, by rw [huv]; rfl, hv⟩

/-- A match of the subject against `literal ++ %` pins a case-insensitive
copy of the literal at the front of the subject. -/
theorem likeMatch_lit_percent_elim :
    ∀ (p : List Char), metaFree p = true → ∀ (s : List Char),
      likeMatch (p ++ ['%']) s = true →
      ∃ w x, s = w ++ x ∧ litMatch p w = true := by
  intro p
  induction p with
  | nil =>
    intro _ s _
    exact ⟨[], s, rfl, rfl⟩
  | cons a ps ih =>
    intro hm s h
    simp only [metaFree, List.all_cons, Bool.and_eq_true, decide_eq_true_eq] at hm
    obtain ⟨⟨ha1, ha2⟩, hps⟩ := hm
    rw [List.cons_append, likeMatch_cons_unfold a (ps ++ ['%']) s ha1] at h
    match s with
    | [] => exact (Bool.false_ne_true h).elim
    | c :: cs =>
      dsimp only at h
      rw [if_neg ha2] at h
      obtain ⟨hci, hrest⟩ := Bool.and_eq_true_iff.mp h
      obtain ⟨w, x, hwx, hlit⟩ := ih hps cs hrest
      refine ⟨c :: w, x, by rw [hwx]; rfl, ?_⟩
      simp only [litMatch, hci, hlit, Bool.and_self]

/-- A literal match is a case-insensitive prefix, even with a leftover. -/
theorem prefixCI_of_litMatch :
    ∀ {p w : List Char}, litMatch p w = true → ∀ (x : List Char),
      prefixCI p (w ++ x) = true := by
  intro p
  induction p with
  | nil => intro w _ x; rfl
  | cons a ps ih =>
    intro w h x
    match w with
    | [] => cases h
    | c :: cs =>
      simp only [litMatch, Bool.and_eq_true] at h
      simp only [List.cons_append, prefixCI, h.1, Bool.true_and]
      exact ih h.2 x

/-- A case-insensitive prefix occurring after any leading junk is a
case-insensitive infix. -/
theorem infixCI_of_prefixCI :
    ∀ (u : List Char) {p s : List Char}, prefixCI p s = true →
      infixCI p (u ++ s) = true := by
  intro u
  induction u with
  | nil =>
    intro p s h
    match s with
    | [] => exact h
    | c :: cs => simp only [List.nil_append, infixCI, h, Bool.true_or]
  | cons d u ih =>
    intro p s h
    rw [List.cons_append, infixCI]
    exact Bool.or_eq_true_iff.mpr (Or.inr (ih h))

/-- `splitChar` never returns the empty list of pieces. -/
theorem splitChar_ne_nil (sep : Char) : ∀ (l : List Char), splitChar sep l ≠ [] := by
  intro l
  match l with
  | [] => simp [splitChar]
  | c :: cs =>
    rw [splitChar]
    by_cases h : c = sep
    · simp [h]
    · rw [if_neg h]
      match hs : splitChar sep cs with
      | [] => simp
      | p :: ps => simp

/-- No piece produced by `splitChar` contains the separator. -/
theorem splitChar_no_sep (sep : Char) :
    ∀ (l : List Char) (piece : List Char), piece ∈ splitChar sep l → sep ∉ piece := by
  intro l
  induction l with
  | nil =>
    intro piece hp
    simp only [splitChar, List.mem_singleton] at hp
    simp [hp]
  | cons c cs ih =>
    intro piece hp
    rw [splitChar] at hp
    by_cases h : c = sep
    · rw [if_pos h] at hp
      rcases List.mem_cons.mp hp with h1 | h2
      · simp [h1]
      · exact ih piece h2
    · rw [if_neg h] at hp
      match hs : splitChar sep cs with
      | [] => exact absurd hs (splitChar_ne_nil sep cs)
      | p :: ps =>
        rw [hs] at hp
        rcases List.mem_cons.mp hp with h1 | h2
        · subst h1
          intro hmem
          rcases List.mem_cons.mp hmem with h3 | h4
          · exact h h3.symm
          · exact ih p (hs ▸ List.mem_cons_self p ps) h4
        · exact ih piece (hs ▸ List.mem_cons.mpr (Or.inr h2))

/-- `pyStrip` introduces no new characters. -/
theorem mem_pyStrip {c : Char} {s : String} (h : c ∈ (pyStrip s).data) : c ∈ s.data := by
  unfold pyStrip at h
  simp only [List.mem_reverse] at h
  have h1 := (List.dropWhile_sublist _).subset h
  simp only [List.mem_reverse] at h1
  exact (List.dropWhile_sublist _).subset h1

/-- Every parsed filter tag is comma-free. -/
theorem tagFilterList_no_comma {ts t : String} (h : t ∈ tagFilterList ts) :
    ',' ∉ t.data := by
  unfold tagFilterList at h
  obtain ⟨t', ht', hstrip⟩ := List.mem_map.mp (List.mem_of_mem_filter h)
  obtain ⟨l, hl, hmk⟩ := List.mem_map.mp ht'
  intro hc
  refine splitChar_no_sep ',' ts.data l hl ?_
  have := mem_pyStrip (hstrip ▸ hc)
  rwa [← hmk] at this

/-- Soundness of one tag clause: if the SQL `LIKE` filter accepts a row for a
wildcard-free filter tag, that tag occurs as a whole comma-delimited token of
the row's stored tag string, up to ASCII case. -/
theorem tagClause_token {t rowTags : String} (hm : metaFree t.data = true)
    (h : tagClause t rowTags = true) : tokenPresentCI t rowTags = true := by
  unfold tagClause at h
  have hsh : ('%' :: ',' :: (t.data ++ [',', '%'])) =
      '%' :: ((',' :: t.data ++ [',']) ++ ['%']) := by simp
  rw [hsh] at h
  obtain ⟨u, v, huv, hv⟩ := likeMatch_percent_elim _ h
  have hmfull : metaFree (',' :: t.data ++ [',']) = true := by
    simp only [metaFree] at hm
    have hall := List.all_eq_true.mp hm
    refine List.all_eq_true.mpr ?_
    intro c hc
    rcases List.mem_cons.mp hc with h1 | h2
    · subst h1; decide
    · rcases List.mem_append.mp h2 with h3 | h4
      · exact hall c h3
      · simp only [List.mem_singleton] at h4; subst h4; decide
  obtain ⟨w, x, hwx, hlit⟩ := likeMatch_lit_percent_elim _ hmfull v hv
  unfold tokenPresentCI
  rw [hwx] at huv
  rw [huv]
  exact infixCI_of_prefixCI u (prefixCI_of_litMatch hlit x)

/-- Inversion of row conversion. -/
theorem convertAll_mem {now : PyDatetime} :
    ∀ {l : List VideoRow} {vids : List Video}, convertAll now l = some vids →
      ∀ v ∈ vids, ∃ row ∈ l, row_to_video now row = some v := by
  intro l
  induction l with
  | nil =>
    intro vids h v hv
    rw [convertAll] at h
    injection h with h
    subst h
    cases hv
  | cons r rs ih =>
    intro vids h v hv
    rw [convertAll] at h
    match hr : row_to_video now r, hrs : convertAll now rs with
    | some w, some ws =>
      rw [hr, hrs] at h
      simp only [Option.some.injEq] at h
      subst h
      rcases List.mem_cons.mp hv with h1 | h2
      · exact ⟨r, by simp, h1 ▸ hr⟩
      · obtain ⟨row, hrow, hconv⟩ := ih hrs v h2
        exact ⟨row, by simp [hrow], hconv⟩
    | some _, none => rw [hr, hrs] at h; cases h
    | none, _ => rw [hr] at h; cases h

/-- C3 (amended): every record returned by a tag-filtered search matches each
wildcard-free filter tag as a whole comma-delimited token of its stored tag
string, compared ASCII-case-insensitively — never by raw substring match
(`tag2` still cannot match a record tagged only `tag20`); filter tags
containing the SQL wildcards `%`/`_` act as LIKE patterns instead, and
ASCII-case differences are ignored (which is where the claim as frozen
fails, see the counterexample). -/
theorem claim_C3 (now : PyDatetime) (store : List VideoRow) (q : Option String)
    (ts : String) (limit : Nat) (vids : List Video)
    (h : list_videos now store q (some ts) limit = .ok vids) :
    ∀ v ∈ vids, ∃ row ∈ store, row_to_video now row = some v ∧
      ∀ t ∈ tagFilterList ts, metaFree t.data = true →
        ',' ∉ t.data ∧ tokenPresentCI t row.tags = true := by
  intro v hv
  unfold list_videos at h
  match hc : convertAll now (selectRows store q (some ts) limit) with
  | none => rw [hc] at h; cases h
  | some ws =>
    rw [hc] at h
    simp only [Except.ok.injEq] at h
    subst h
    obtain ⟨row, hrow, hconv⟩ := convertAll_mem hc v hv
    have hrow2 : row ∈ List.insertionSort createdDescLe (store.filter (rowPasses q (some ts))) := by
      unfold selectRows at hrow
      by_cases hl : limit ≠ 0
      · rw [if_pos hl] at hrow
        exact List.take_subset _ _ hrow
      · rw [if_neg hl] at hrow
        exact hrow
    have hrow3 : row ∈ store.filter (rowPasses q (some ts)) :=
      (List.mem_insertionSort createdDescLe).mp hrow2
    obtain ⟨hmem, hpass⟩ := List.mem_filter.mp hrow3
    refine ⟨row, hmem, hconv, ?_⟩
    intro t ht hmfree
    refine ⟨tagFilterList_no_comma ht, ?_⟩
    have hpass2 := (Bool.and_eq_true_iff.mp hpass).2
    by_cases hts : ts = ""
    · subst hts
      cases ht
    · simp only [hts, ne_eq, not_false_eq_true, if_true, decide_not] at hpass2
      have hall := List.all_eq_true.mp (by simpa using hpass2) t ht
      exact tagClause_token hmfree (by simpa using hall)

/-- Counterexample for C3 as stated: SQLite `LIKE` compares ASCII letters
case-insensitively, so the filter tag `"A"` matches a record whose only tag
is `"a"`, although `"A"` does not appear as a whole comma-delimited token of
the stored tag string — the record's tag set is not a superset of the
filter set taken literally. -/
theorem claim_C3_cex :
    (list_videos { wall := 0, us := 0, tzOffset := some 32400 }
        [{ title := "t", tags := "a", location := "loc", baseUrl := "http://b",
           movieId := "m1", createdAt := "2024-01-01T00:00:00+09:00" }]
        none (some "A") 10).map (fun vs => vs.map (fun v => (v.movieId, v.tags))) =
      .ok [("m1", ["a"])] ∧
    tagFilterList "A" = ["A"] ∧
    tokenPresent "A" "a" = false ∧
    ("A" : String) ∉ (["a"] : List String) :=
  ⟨by rfl, by decide, by decide, by decide⟩

/-- Witness for C3: a concrete search with filter tag `"B"` over a record
tagged `"b,ab"` returns the record, and `claim_C3` itself certifies that
`"B"` occurs as a whole comma-delimited token (up to ASCII case) — in
particular the substring-bearing token `"ab"` alone would not have matched. -/
theorem claim_C3_witness :
    ∃ row ∈ [({ title := "t", tags := "b,ab", location := "loc", baseUrl := "http://b",
                movieId := "m1", createdAt := "2024-01-01T00:00:00+09:00" } : VideoRow)],
      row_to_video { wall := 0, us := 0, tzOffset := some 32400 } row =
        some { title := "t", tags := ["b", "ab"], location := "loc",
               generateDate := { wall := 1704067200, us := 0, tzOffset := some 32400 },
               baseUrl := "http://b", movieId := "m1", url := "http://b/m1.mp4" } ∧
      ∀ t ∈ tagFilterList "B", metaFree t.data = true →
        ',' ∉ t.data ∧ tokenPresentCI t row.tags = true :=
  claim_C3 { wall := 0, us := 0, tzOffset := some 32400 }
    [{ title := "t", tags := "b,ab", location := "loc", baseUrl := "http://b",
       movieId := "m1", createdAt := "2024-01-01T00:00:00+09:00" }]
    none "B" 10
    [{ title := "t", tags := ["b", "ab"], location := "loc",
       generateDate := { wall := 1704067200, us := 0, tzOffset := some 32400 },
       baseUrl := "http://b", movieId := "m1", url := "http://b/m1.mp4" }]
    (by rfl)
    { title := "t", tags := ["b", "ab"], location := "loc",
      generateDate := { wall := 1704067200, us := 0, tzOffset := some 32400 },
      baseUrl := "http://b", movieId := "m1", url := "http://b/m1.mp4" }
    (by simp)

end AgaruUp
